import Mathlib

/-!
Shallow embedding of the TTL-cached time-bucket aggregation engine of
`src/backend/kusto.py` (class `KustoHandler`), together with proofs of the
spec's claims about it.

Modelling conventions:
* A Python `datetime.datetime` is modelled by `PyDateTime`: the proleptic
  Gregorian ordinal of its calendar date (as returned by `date.toordinal`,
  ordinal 1 = 0001-01-01) plus hour/minute/second fields.  Comparison,
  `timedelta(days=n)` subtraction and `weekday()` are all defined on the
  ordinal, exactly as CPython computes them; `strftime` fields are recovered
  with the standard civil-from-days conversion.  Microseconds are not
  modelled (no claim depends on sub-second resolution).
* A Python dict is modelled by an insertion-ordered association list; writing
  a fresh key appends at the end, writing an existing key updates in place.
* A raised exception is modelled by `Except.error` carrying a `PyErr`
  describing the exception class (`KeyError`, `ValueError` from
  `datetime.fromisoformat`, `IndexError`, `TypeError`, `AttributeError`).
* `datetime.fromisoformat` is modelled on the input shapes the engine's
  callers use: `YYYY-MM-DD` and `YYYY-MM-DD(T| )HH:MM:SS`; every other
  string is rejected with a `ValueError` carrying the offending string.
-/

/-- Calendar model of a `datetime.datetime` value: proleptic Gregorian
ordinal day (1 = 0001-01-01, as `date.toordinal`) plus time of day. -/
structure PyDateTime where
  days : Int
  hour : Nat
  minute : Nat
  second : Nat
deriving DecidableEq

/-- Seconds since midnight; with in-range fields this orders times exactly as
CPython's field-by-field comparison does. -/
def timeOfDay (t : PyDateTime) : Nat :=
  t.hour * 3600 + t.minute * 60 + t.second

/-- Python datetime `<=` on the ordinal representation. -/
def dtLe (a b : PyDateTime) : Bool :=
  a.days < b.days || (a.days == b.days && timeOfDay a ≤ timeOfDay b)

/-- Days-from-civil conversion (Gregorian, floor division), shifted to the
Python ordinal convention where 1970-01-01 has ordinal 719163. -/
def daysFromCivil (y m d : Int) : Int :=
  let yAdj := if m ≤ 2 then y - 1 else y
  let era := yAdj / 400
  let yoe := yAdj - era * 400
  let mp := if 2 < m then m - 3 else m + 9
  let doy := (153 * mp + 2) / 5 + d - 1
  let doe := yoe * 365 + yoe / 4 - yoe / 100 + doy
  era * 146097 + doe - 719468 + 719163

/-- Civil-from-days conversion (year, month, day) from a Python ordinal. -/
def civilFromDays (o : Int) : Int × Int × Int :=
  let z := o - 719163 + 719468
  let era := z / 146097
  let doe := z - era * 146097
  let yoe := (doe - doe / 1460 + doe / 36524 - doe / 146096) / 365
  let y := yoe + era * 400
  let doy := doe - (365 * yoe + yoe / 4 - yoe / 100)
  let mp := (5 * doy + 2) / 153
  let d := doy - (153 * mp + 2) / 5 + 1
  let m := if mp < 10 then mp + 3 else mp - 9
  (if m ≤ 2 then y + 1 else y, m, d)

/-- Python `date.weekday()` computed from the ordinal: Monday = 0, Sunday = 6
(ordinal 1 was a Monday). -/
def weekday (o : Int) : Int :=
  (o + 6) % 7

/-- Two-digit zero padding, as `strftime` does for `%m`, `%d`, `%H`. -/
def pad2 (n : Int) : String :=
  if n < 10 then "0" ++ toString n else toString n

/-- Rendering of `strftime("%Y-%m-%d")` for the date of ordinal `o`
(years in the engine's data are four-digit, so `%Y` needs no padding). -/
def formatYMD (o : Int) : String :=
  let c := civilFromDays o
  toString c.1 ++ "-" ++ pad2 c.2.1 ++ "-" ++ pad2 c.2.2

/-- Bucket key of the `"1H"` branch: `ts.strftime("%Y-%m-%d %H:00")`
(kusto.py line 122). -/
def hourKey (t : PyDateTime) : String :=
  formatYMD t.days ++ " " ++ pad2 t.hour ++ ":00"

/-- Bucket key of the `"1D"` branch: `ts.strftime("%Y-%m-%d")`
(kusto.py line 144). -/
def dayKey (t : PyDateTime) : String :=
  formatYMD t.days

/-- Bucket key of the `"1W"` branch (kusto.py lines 168-169):
`(ts - timedelta(days=ts.weekday())).strftime("%Y-%m-%d")`. -/
def weekKey (t : PyDateTime) : String :=
  formatYMD (t.days - weekday t.days)

/-- Bucket key of the `"1M"` branch: `ts.strftime("%Y-%m")`
(kusto.py line 191). -/
def monthKey (t : PyDateTime) : String :=
  let c := civilFromDays t.days
  toString c.1 ++ "-" ++ pad2 c.2.1

/-- Bucket key of the `"3M"` branch (kusto.py lines 213-215):
`f"{ts.year}-Q{(ts.month - 1) // 3 + 1}"`. -/
def quarterKey (t : PyDateTime) : String :=
  let c := civilFromDays t.days
  toString c.1 ++ "-Q" ++ toString ((c.2.1 - 1) / 3 + 1)

/-- Exception classes that the modelled code can raise. -/
inductive PyErr where
  | keyError (key : String)
  | valueError (s : String)
  | indexError
  | typeError
  | attributeError
deriving DecidableEq

/-- Cell value of a columnar dataset: a timestamp or a categorical string. -/
inductive Value where
  | dt (t : PyDateTime)
  | str (s : String)
deriving DecidableEq

deriving instance DecidableEq for Except

abbrev Column := List Value

/-- Python dict mapping column name to value sequence, in insertion order. -/
abbrev Dataset := List (String × Column)

/-- Dict read `d[k]`: first (and in well-formed data only) binding of `k`,
`KeyError` when absent. -/
def getCol (d : Dataset) (k : String) : Except PyErr Column :=
  match d with
  | [] => .error (.keyError k)
  | (k2, c) :: rest => if k2 = k then .ok c else getCol rest k

/-- Dict write `d[k] = c`: update in place when the key exists, else append. -/
def setCol (d : Dataset) (k : String) (c : Column) : Dataset :=
  match d with
  | [] => [(k, c)]
  | (k2, c2) :: rest => if k2 = k then (k2, c) :: rest else (k2, c2) :: setCol rest k c

/-- Python truthiness of an optional string argument (`None` and `""` are
falsy), as tested by line 103 of kusto.py. -/
def truthyOpt (s : Option String) : Bool :=
  match s with
  | none => false
  | some s => s != ""

/-- List digits to a number; `none` when a non-digit appears. -/
def natOfDigits (acc : Nat) : List Char → Option Nat
  | [] => some acc
  | c :: rest => if c.isDigit then natOfDigits (acc * 10 + (c.toNat - 48)) rest else none

/-- Leap-year test of the Gregorian calendar. -/
def isLeap (y : Int) : Bool :=
  (y % 4 == 0 && y % 100 != 0) || y % 400 == 0

/-- Number of days in a month. -/
def daysInMonth (y m : Int) : Int :=
  if m = 2 then (if isLeap y then 29 else 28)
  else if m = 4 ∨ m = 6 ∨ m = 9 ∨ m = 11 then 30
  else 31

/-- Validated `YYYY-MM-DD` parse on the character list of the input. -/
def dateOnly (cs : List Char) : Option (Int × Int × Int) :=
  match cs with
  | [y1, y2, y3, y4, '-', m1, m2, '-', d1, d2] =>
    match natOfDigits 0 [y1, y2, y3, y4], natOfDigits 0 [m1, m2], natOfDigits 0 [d1, d2] with
    | some y, some m, some d =>
      let yi : Int := y
      let mi : Int := m
      let di : Int := d
      if 1 ≤ yi ∧ 1 ≤ mi ∧ mi ≤ 12 ∧ 1 ≤ di ∧ di ≤ daysInMonth yi mi then
        some (yi, mi, di)
      else none
    | _, _, _ => none
  | _ => none

/-- Validated `HH:MM:SS` parse. -/
def timePart (cs : List Char) : Option (Nat × Nat × Nat) :=
  match cs with
  | [h1, h2, ':', m1, m2, ':', s1, s2] =>
    match natOfDigits 0 [h1, h2], natOfDigits 0 [m1, m2], natOfDigits 0 [s1, s2] with
    | some h, some m, some s =>
      if h ≤ 23 ∧ m ≤ 59 ∧ s ≤ 59 then some (h, m, s) else none
    | _, _, _ => none
  | _ => none

/-- Validated `YYYY-MM-DD(T| )HH:MM:SS` parse. -/
def dateAndTime (cs : List Char) : Option ((Int × Int × Int) × (Nat × Nat × Nat)) :=
  match cs with
  | y1 :: y2 :: y3 :: y4 :: '-' :: m1 :: m2 :: '-' :: d1 :: d2 :: sep :: rest =>
    if sep = 'T' ∨ sep = ' ' then
      match dateOnly [y1, y2, y3, y4, '-', m1, m2, '-', d1, d2], timePart rest with
      | some ymd, some hms => some (ymd, hms)
      | _, _ => none
    else none
  | _ => none

/-- Model of `datetime.datetime.fromisoformat` on the shapes the engine is
called with; any other string raises `ValueError` carrying that string. -/
def fromisoformat (s : String) : Except PyErr PyDateTime :=
  match dateOnly s.toList with
  | some (y, m, d) => .ok ⟨daysFromCivil y m d, 0, 0, 0⟩
  | none =>
    match dateAndTime s.toList with
    | some ((y, m, d), (hh, mm, ss)) => .ok ⟨daysFromCivil y m d, hh, mm, ss⟩
    | none => .error (.valueError s)

/-- Model of `end_dt.replace(hour=23, minute=59, second=59)` (kusto.py
line 106). -/
def endOfDay (t : PyDateTime) : PyDateTime :=
  ⟨t.days, 23, 59, 59⟩

/-- Conversion a comparison `start_dt <= ts` forces: a non-datetime in the
timestamp column raises `TypeError` (kusto.py line 111). -/
def asDateCmp (v : Value) : Except PyErr PyDateTime :=
  match v with
  | .dt t => .ok t
  | .str _ => .error .typeError

/-- Conversion `ts.strftime`/`ts.weekday` forces: a non-datetime raises
`AttributeError` (kusto.py lines 122, 144, 168, 191, 213). -/
def asDateAttr (v : Value) : Except PyErr PyDateTime :=
  match v with
  | .dt t => .ok t
  | .str _ => .error .attributeError

/-- List indexing `c[i]`, raising `IndexError` out of range. -/
def pyGet : Column → Nat → Except PyErr Value
  | [], _ => .error .indexError
  | v :: _, 0 => .ok v
  | _ :: rest, n + 1 => pyGet rest n

/-- Row-retention test of the range filter: `start_dt <= ts <= end_dt`
(kusto.py line 111). -/
def keep (sdt edt t : PyDateTime) : Bool :=
  dtLe sdt t && dtLe t edt

/-- Filtered-indices comprehension of kusto.py lines 109-112, carrying the
running `enumerate` index `i`. -/
def idxFilter (sdt edt : PyDateTime) : Column → Nat → Except PyErr (List Nat)
  | [], _ => .ok []
  | v :: rest, i =>
    match asDateCmp v with
    | .error e => .error e
    | .ok t =>
      match idxFilter sdt edt rest (i + 1) with
      | .error e => .error e
      | .ok r => .ok (if keep sdt edt t then i :: r else r)

/-- Gathering comprehension `[c[i] for i in idxs]` (kusto.py lines 114-115). -/
def gather (c : Column) : List Nat → Except PyErr Column
  | [] => .ok []
  | i :: rest =>
    match pyGet c i with
    | .error e => .error e
    | .ok v =>
      match gather c rest with
      | .error e => .error e
      | .ok r => .ok (v :: r)

/-- Range-filter step of `get_bar_data` (kusto.py lines 103-115), acting on
the cache-resolved snapshot `bar_data` (`filtered_data` starts as its copy,
so writes land on a dict holding all original columns). -/
def rangeFilterStep (bar_data : Dataset) (feature : String)
    (start_date end_date : Option String) : Except PyErr Dataset :=
  if truthyOpt start_date && truthyOpt end_date && !bar_data.isEmpty then
    match fromisoformat (start_date.getD "") with
    | .error e => .error e
    | .ok start_dt =>
      match fromisoformat (end_date.getD "") with
      | .error e => .error e
      | .ok end_dt0 =>
        let end_dt := endOfDay end_dt0
        match getCol bar_data "timestamp" with
        | .error e => .error e
        | .ok tsCol =>
          match idxFilter start_dt end_dt tsCol 0 with
          | .error e => .error e
          | .ok idxs =>
            match gather tsCol idxs with
            | .error e => .error e
            | .ok newTs =>
              match getCol bar_data feature with
              | .error e => .error e
              | .ok fCol =>
                match gather fCol idxs with
                | .error e => .error e
                | .ok newF =>
                  .ok (setCol (setCol bar_data "timestamp" newTs) feature newF)
  else
    .ok bar_data

/-- One `(bucket, value, count)` record of the aggregation result
(`{"date": ..., "value": ..., "count": ...}` in kusto.py). -/
structure AggregationRecord where
  date : String
  value : Value
  count : Nat
deriving DecidableEq

abbrev ValueCounts := List (Value × Nat)

/-- The nested dict `bins : {bucket_key: {value: count}}`, insertion-ordered. -/
abbrev Bins := List (String × ValueCounts)

/-- Inner-dict update `counts[value] = counts.get(value, 0) + 1`. -/
def incr (cnts : ValueCounts) (v : Value) : ValueCounts :=
  match cnts with
  | [] => [(v, 1)]
  | (w, n) :: rest => if w = v then (w, n + 1) :: rest else (w, n) :: incr rest v

/-- One loop-body iteration on `bins`: ensure the bucket's inner dict exists,
then increment the value's counter (kusto.py lines 123-127 and analogues). -/
def addRow (b : Bins) (k : String) (v : Value) : Bins :=
  match b with
  | [] => [(k, [(v, 1)])]
  | (k2, c) :: rest => if k2 = k then (k2, incr c v) :: rest else (k2, c) :: addRow rest k v

/-- Result flattening: the nested `for bucket ... for value ...` loops that
emit one record per counter (kusto.py lines 129-136 and analogues). -/
def flattenBins : Bins → List AggregationRecord
  | [] => []
  | (k, c) :: rest => c.map (fun p => ⟨k, p.1, p.2⟩) ++ flattenBins rest

/-- Grouping loop `for i, ts in enumerate(filtered_data["timestamp"])` of a
granularity branch: bucket key from `ts`, value from `filtered_data[feature][i]`
(read through the dict on every iteration, as the source does). -/
def aggLoop (key : PyDateTime → String) (d : Dataset) (feature : String) :
    Column → Nat → Bins → Except PyErr Bins
  | [], _, b => .ok b
  | v :: rest, i, b =>
    match asDateAttr v with
    | .error e => .error e
    | .ok t =>
      match getCol d feature with
      | .error e => .error e
      | .ok fCol =>
        match pyGet fCol i with
        | .error e => .error e
        | .ok fv => aggLoop key d feature rest (i + 1) (addRow b (key t) fv)

/-- One granularity branch of `get_bar_data`: group the filtered rows by
`key` and flatten the counters to records (kusto.py lines 118-231; the five
branches are this code with their respective key functions). -/
def aggregateBy (key : PyDateTime → String) (d : Dataset) (feature : String) :
    Except PyErr (List AggregationRecord) :=
  match getCol d "timestamp" with
  | .error e => .error e
  | .ok tsCol =>
    match aggLoop key d feature tsCol 0 [] with
    | .error e => .error e
    | .ok b => .ok (flattenBins b)

/-- Body of `KustoHandler.get_bar_data` from line 103 on, with the
cache-resolved snapshot `self.bar_data` passed explicitly (lines 87-101
resolve it; `filtered_data` starts as its copy).  The final `else` is the
source's explicit recursive fallback `return self.get_bar_data(feature,
start_date, end_date, "1D")` (line 235). -/
def get_bar_data (bar_data : Dataset) (feature : String)
    (start_date end_date : Option String) (bin_size : String) :
    Except PyErr (List AggregationRecord) :=
  match rangeFilterStep bar_data feature start_date end_date with
  | .error e => .error e
  | .ok filtered_data =>
    if bin_size = "1H" then aggregateBy hourKey filtered_data feature
    else if bin_size = "1D" then aggregateBy dayKey filtered_data feature
    else if bin_size = "1W" then aggregateBy weekKey filtered_data feature
    else if bin_size = "1M" then aggregateBy monthKey filtered_data feature
    else if bin_size = "3M" then aggregateBy quarterKey filtered_data feature
    else get_bar_data bar_data feature start_date end_date "1D"
termination_by (if bin_size = "1D" then 0 else 1)
decreasing_by simp_all

/-- Fuel-indexed variant of `get_bar_data` whose recursive fallback consumes
one unit of fuel; `none` means the fuel ran out before the call returned. -/
def getBarDataFuel (fuel : Nat) (bar_data : Dataset) (feature : String)
    (start_date end_date : Option String) (bin_size : String) :
    Option (Except PyErr (List AggregationRecord)) :=
  match fuel with
  | 0 => none
  | fuel + 1 =>
    match rangeFilterStep bar_data feature start_date end_date with
    | .error e => some (.error e)
    | .ok filtered_data =>
      if bin_size = "1H" then some (aggregateBy hourKey filtered_data feature)
      else if bin_size = "1D" then some (aggregateBy dayKey filtered_data feature)
      else if bin_size = "1W" then some (aggregateBy weekKey filtered_data feature)
      else if bin_size = "1M" then some (aggregateBy monthKey filtered_data feature)
      else if bin_size = "3M" then some (aggregateBy quarterKey filtered_data feature)
      else getBarDataFuel fuel bar_data feature start_date end_date "1D"

/-- Mutable state of a `KustoHandler` instance (kusto.py lines 45-51); wall
clock times are modelled as integer seconds and passed in explicitly where
the source calls `datetime.datetime.now()`. -/
structure KustoHandler where
  data : Option Dataset
  bar_data : Option Dataset
  last_load_time : Option Int
  bar_last_load_time : Option Int
  cache_duration : Int
deriving DecidableEq

/-- Handler as constructed by `__init__`: empty slots, TTL 600 seconds. -/
def initHandler : KustoHandler :=
  ⟨none, none, none, none, 600⟩

/-- `KustoHandler._is_cache_valid` (kusto.py lines 53-57): absent load time
is never fresh, otherwise fresh iff the age is strictly below the TTL. -/
def is_cache_valid (h : KustoHandler) (now : Int) (last_load_time : Option Int) : Bool :=
  match last_load_time with
  | none => false
  | some t => now - t < h.cache_duration

/-- One slot's part of the `get_cache_status` result.  The source formats
`last_load` with `strftime` and reports the age as minutes rounded to one
decimal for display; the model keeps the underlying load time and the age in
seconds, which carry the same information. -/
structure SlotStatus where
  valid : Bool
  last_load : Option Int
  age_seconds : Option Int
deriving DecidableEq

/-- Result shape of `get_cache_status` (kusto.py lines 254-266). -/
structure CacheStatus where
  line_cache : SlotStatus
  bar_cache : SlotStatus
  cache_duration_seconds : Int
deriving DecidableEq

/-- Status of one slot as `get_cache_status` reports it. -/
def slotStatus (h : KustoHandler) (now : Int) (t : Option Int) : SlotStatus :=
  ⟨is_cache_valid h now t, t, t.map (fun x => now - x)⟩

/-- `KustoHandler.get_cache_status` (kusto.py lines 249-266), in explicit
state-passing style: the returned triple is (result, handler state after the
call, list of dataset kinds loaded from the external source during the
call).  The source body only reads `self.*` fields and calls
`_is_cache_valid`; it contains no assignment and no `_update_cache` call, so
the translation returns the state unchanged and an empty load list. -/
def get_cache_status (h : KustoHandler) (now : Int) :
    CacheStatus × KustoHandler × List String :=
  (⟨slotStatus h now h.last_load_time,
    slotStatus h now h.bar_last_load_time,
    h.cache_duration⟩, h, [])

/-- Key function selected by each recognized `bin_size` tag. -/
def keyForBin (bin_size : String) : PyDateTime → String :=
  if bin_size = "1H" then hourKey
  else if bin_size = "1D" then dayKey
  else if bin_size = "1W" then weekKey
  else if bin_size = "1M" then monthKey
  else quarterKey

/-- Sum of the counts of the emitted records whose bucket is `bk`. -/
def recsTotal (recs : List AggregationRecord) (bk : String) : Nat :=
  match recs with
  | [] => 0
  | r :: rest => (if r.date = bk then r.count else 0) + recsTotal rest bk

/-- Columnar invariant: every column sequence has the same length. -/
def allColsSameLength (d : Dataset) : Bool :=
  match d with
  | [] => true
  | (_, c) :: rest => rest.all (fun e => e.2.length == c.length)

/-- Timestamps retained by the window `[sdt, edt]`, in original order. -/
def keptRows (sdt edt : PyDateTime) (ts : List PyDateTime) : List PyDateTime :=
  ts.filter (fun t => keep sdt edt t)

/-- Pure form of the grouping loop: fold `addRow` over (bucket key, value)
pairs. -/
def buildBins : List (String × Value) → Bins → Bins
  | [], b => b
  | p :: rest, b => buildBins rest (addRow b p.1 p.2)

/-- Sum of the counters of one bucket's inner dict. -/
def countsSum (cnts : ValueCounts) : Nat :=
  match cnts with
  | [] => 0
  | p :: rest => p.2 + countsSum rest

/-- Sum of the counters held for bucket `bk` across the bins dict. -/
def binsTotal (b : Bins) (bk : String) : Nat :=
  match b with
  | [] => 0
  | (k, c) :: rest => (if k = bk then countsSum c else 0) + binsTotal rest bk

/-- Positions the filtered-indices comprehension yields on an all-datetime
timestamp column, starting the enumeration at `i`. -/
def idxList (sdt edt : PyDateTime) : List PyDateTime → Nat → List Nat
  | [], _ => []
  | t :: rest, i =>
    if keep sdt edt t then i :: idxList sdt edt rest (i + 1)
    else idxList sdt edt rest (i + 1)

/-- All counters stored in the bins dict are at least one. -/
def countsPos (b : Bins) : Prop :=
  ∀ e ∈ b, ∀ p ∈ e.2, 1 ≤ p.2

/-- No duplicate bucket keys, and no duplicate values inside any bucket. -/
def binsNodup (b : Bins) : Prop :=
  (b.map Prod.fst).Nodup ∧ ∀ e ∈ b, (e.2.map Prod.fst).Nodup

/-- Concrete snapshot with rows at 2024-01-01T00:00:00 and
2024-01-03T23:59:59, used for the spec's filter-inclusivity examples. -/
def dsTwoRows : Dataset :=
  [("timestamp", [Value.dt ⟨daysFromCivil 2024 1 1, 0, 0, 0⟩,
                  Value.dt ⟨daysFromCivil 2024 1 3, 23, 59, 59⟩]),
   ("status", [Value.str "a", Value.str "b"])]

/-- Concrete snapshot with a timestamp column and zero rows, and no other
column at all. -/
def dsEmptyNoFeature : Dataset :=
  [("timestamp", [])]

/-- Concrete three-column snapshot whose third column is not the analyzed
feature; rows at 2024-01-01T05:00:00 and 2024-01-02T05:00:00. -/
def dsThreeCols : Dataset :=
  [("timestamp", [Value.dt ⟨daysFromCivil 2024 1 1, 5, 0, 0⟩,
                  Value.dt ⟨daysFromCivil 2024 1 2, 5, 0, 0⟩]),
   ("status", [Value.str "x", Value.str "y"]),
   ("priority", [Value.str "p", Value.str "q"])]

/-- Number of keys in `ks` equal to `bk`. -/
def countKey (ks : List String) (bk : String) : Nat :=
  match ks with
  | [] => 0
  | k :: rest => (if k = bk then 1 else 0) + countKey rest bk

lemma countsSum_incr (c : ValueCounts) (v : Value) :
    countsSum (incr c v) = countsSum c + 1 := by
  induction c with
  | nil => simp [incr, countsSum]
  | cons p rest ih =>
    obtain ⟨w, n⟩ := p
    by_cases h : w = v
    · simp [incr, h, countsSum]
      omega
    · simp [incr, h, countsSum, ih]
      omega

lemma binsTotal_addRow (b : Bins) (k : String) (v : Value) (bk : String) :
    binsTotal (addRow b k v) bk = binsTotal b bk + (if k = bk then 1 else 0) := by
  induction b with
  | nil =>
    by_cases h : k = bk <;> simp [addRow, binsTotal, countsSum, h]
  | cons e rest ih =>
    obtain ⟨k2, c⟩ := e
    by_cases h : k2 = k
    · subst h
      by_cases h2 : k2 = bk
      · simp [addRow, binsTotal, h2, countsSum_incr]
        omega
      · simp [addRow, binsTotal, h2, countsSum_incr]
    · simp [addRow, h, binsTotal, ih]
      omega

lemma binsTotal_buildBins (ps : List (String × Value)) (b : Bins) (bk : String) :
    binsTotal (buildBins ps b) bk = binsTotal b bk + countKey (ps.map Prod.fst) bk := by
  induction ps generalizing b with
  | nil => simp [buildBins, countKey]
  | cons p rest ih =>
    simp [buildBins, ih, binsTotal_addRow, countKey]
    omega

lemma recsTotal_append (r1 r2 : List AggregationRecord) (bk : String) :
    recsTotal (r1 ++ r2) bk = recsTotal r1 bk + recsTotal r2 bk := by
  induction r1 with
  | nil => simp [recsTotal]
  | cons r rest ih =>
    simp [recsTotal, ih]
    omega

lemma recsTotal_inner (k : String) (c : ValueCounts) (bk : String) :
    recsTotal (c.map (fun p => ⟨k, p.1, p.2⟩)) bk = if k = bk then countsSum c else 0 := by
  induction c with
  | nil => simp [recsTotal, countsSum]
  | cons p rest ih =>
    by_cases h : k = bk
    · subst h
      simp [recsTotal, countsSum, ih]
    · simp [recsTotal, countsSum, ih, h]

lemma recsTotal_flatten (b : Bins) (bk : String) :
    recsTotal (flattenBins b) bk = binsTotal b bk := by
  induction b with
  | nil => simp [flattenBins, recsTotal, binsTotal]
  | cons e rest ih =>
    obtain ⟨k, c⟩ := e
    simp [flattenBins, binsTotal, recsTotal_append, recsTotal_inner, ih]

lemma incr_pos (c : ValueCounts) (v : Value) (h : ∀ p ∈ c, 1 ≤ p.2) :
    ∀ p ∈ incr c v, 1 ≤ p.2 := by
  induction c with
  | nil =>
    intro p hp
    simp [incr] at hp
    simp [hp]
  | cons q rest ih =>
    obtain ⟨w, n⟩ := q
    intro p hp
    by_cases hwv : w = v
    · simp [incr, hwv] at hp
      rcases hp with h1 | h2
      · simp [h1]
      · exact h p (by simp [h2])
    · simp [incr, hwv] at hp
      rcases hp with h1 | h2
      · exact h p (by simp [h1])
      · exact ih (fun p hp => h p (by simp [hp])) p h2

lemma addRow_pos (b : Bins) (k : String) (v : Value) (h : countsPos b) :
    countsPos (addRow b k v) := by
  induction b with
  | nil =>
    intro e he
    simp [addRow] at he
    intro p hp
    simp [he] at hp
    simp [hp]
  | cons e2 rest ih =>
    obtain ⟨k2, c⟩ := e2
    intro e he
    by_cases hk : k2 = k
    · simp [addRow, hk] at he
      rcases he with he | he
      · intro p hp
        simp [he] at hp
        exact incr_pos c v (fun p hp => h (k2, c) (by simp) p hp) p hp
      · exact h e (by simp [he])
    · simp [addRow, hk] at he
      rcases he with he | he
      · exact h e (by simp [he])
      · exact ih (fun e2 he2 => h e2 (by simp [he2])) e he

lemma buildBins_pos (ps : List (String × Value)) (b : Bins) (h : countsPos b) :
    countsPos (buildBins ps b) := by
  induction ps generalizing b with
  | nil => exact h
  | cons p rest ih => exact ih (addRow b p.1 p.2) (addRow_pos b p.1 p.2 h)

lemma flatten_pos (b : Bins) (h : countsPos b) :
    ∀ r ∈ flattenBins b, 1 ≤ r.count := by
  induction b with
  | nil => simp [flattenBins]
  | cons e rest ih =>
    obtain ⟨k, c⟩ := e
    intro r hr
    simp [flattenBins] at hr
    rcases hr with ⟨v, n, hvn, hrec⟩ | hr
    · have := h (k, c) (by simp) (v, n) hvn
      simp [← hrec]
      exact this
    · exact ih (fun e he => h e (by simp [he])) r hr

lemma incr_keys (c : ValueCounts) (v : Value) :
    (incr c v).map Prod.fst
      = if v ∈ c.map Prod.fst then c.map Prod.fst else c.map Prod.fst ++ [v] := by
  induction c with
  | nil => simp [incr]
  | cons q rest ih =>
    obtain ⟨w, n⟩ := q
    by_cases hwv : w = v
    · simp [incr, hwv]
    · by_cases hv : v ∈ rest.map Prod.fst
      · simp [incr, hwv, ih, hv, Ne.symm hwv]
      · simp [incr, hwv, ih, hv, Ne.symm hwv]

lemma incr_nodup (c : ValueCounts) (v : Value) (h : (c.map Prod.fst).Nodup) :
    ((incr c v).map Prod.fst).Nodup := by
  rw [incr_keys]
  by_cases hv : v ∈ c.map Prod.fst
  · simpa [hv] using h
  · simp only [hv, if_neg, Bool.false_eq_true, not_false_iff]
    rw [List.nodup_append]
    exact ⟨h, List.nodup_singleton v, by simpa using hv⟩

lemma addRow_keys (b : Bins) (k : String) (v : Value) :
    (addRow b k v).map Prod.fst
      = if k ∈ b.map Prod.fst then b.map Prod.fst else b.map Prod.fst ++ [k] := by
  induction b with
  | nil => simp [addRow]
  | cons e rest ih =>
    obtain ⟨k2, c⟩ := e
    by_cases hk : k2 = k
    · simp [addRow, hk]
    · by_cases hkr : k ∈ rest.map Prod.fst
      · simp [addRow, hk, ih, hkr, Ne.symm hk]
      · simp [addRow, hk, ih, hkr, Ne.symm hk]

lemma binsNodup_addRow (b : Bins) (k : String) (v : Value) :
    binsNodup b → binsNodup (addRow b k v) := by
  induction b with
  | nil =>
    intro _
    constructor
    · simp [addRow]
    · intro e he
      simp [addRow] at he
      simp [he]
  | cons e2 rest ih =>
    obtain ⟨k2, c⟩ := e2
    intro h
    obtain ⟨hkeys, hinner⟩ := h
    rw [List.map_cons, List.nodup_cons] at hkeys
    obtain ⟨hk2, hkeysRest⟩ := hkeys
    by_cases hk : k2 = k
    · subst hk
      constructor
      · simpa [addRow] using List.nodup_cons.mpr ⟨hk2, hkeysRest⟩
      · intro e he
        simp [addRow] at he
        rcases he with he | he
        · rw [he]
          exact incr_nodup c v (hinner (k2, c) (by simp))
        · exact hinner e (by simp [he])
    · have ihres := ih ⟨hkeysRest, fun e he => hinner e (by simp [he])⟩
      obtain ⟨ihkeys, ihinner⟩ := ihres
      constructor
      · simp only [addRow, hk, if_neg, List.map_cons]
        refine List.nodup_cons.mpr ⟨?_, ihkeys⟩
        rw [addRow_keys]
        by_cases hkr : k ∈ rest.map Prod.fst
        · simpa [hkr] using hk2
        · simp only [hkr, if_neg, Bool.false_eq_true, not_false_iff, List.mem_append]
          rintro (hc | hc)
          · exact hk2 hc
          · simp at hc
            exact hk hc
      · intro e he
        simp only [addRow] at he
        rw [if_neg hk, List.mem_cons] at he
        rcases he with he | he
        · rw [he]
          exact hinner (k2, c) (by simp)
        · exact ihinner e he

lemma binsNodup_buildBins (ps : List (String × Value)) (b : Bins) (h : binsNodup b) :
    binsNodup (buildBins ps b) := by
  induction ps generalizing b with
  | nil => exact h
  | cons p rest ih => exact ih (addRow b p.1 p.2) (binsNodup_addRow b p.1 p.2 h)

lemma flatten_fst_mem (b : Bins) (r : AggregationRecord) (hr : r ∈ flattenBins b) :
    r.date ∈ b.map Prod.fst := by
  induction b with
  | nil => simp [flattenBins] at hr
  | cons e rest ih =>
    obtain ⟨k, c⟩ := e
    simp only [flattenBins, List.mem_append, List.mem_map] at hr
    rcases hr with ⟨p, _, hrec⟩ | hr
    · simp [← hrec]
    · simp [ih hr]

lemma flatten_pairsNodup (b : Bins) (h : binsNodup b) :
    ((flattenBins b).map (fun r => (r.date, r.value))).Nodup := by
  induction b with
  | nil => simp [flattenBins]
  | cons e rest ih =>
    obtain ⟨k, c⟩ := e
    obtain ⟨hkeys, hinner⟩ := h
    rw [List.map_cons, List.nodup_cons] at hkeys
    obtain ⟨hk, hkeysRest⟩ := hkeys
    rw [flattenBins, List.map_append, List.nodup_append]
    refine ⟨?_, ih ⟨hkeysRest, fun e he => hinner e (by simp [he])⟩, ?_⟩
    · rw [List.map_map]
      have hc : (c.map Prod.fst).Nodup := hinner (k, c) (by simp)
      have hinj : Function.Injective (fun v => ((k, v) : String × Value)) := by
        intro a b hab
        simpa using hab
      have h2 := hc.map hinj
      rw [List.map_map] at h2
      exact h2
    · intro x hx hx2
      simp only [List.mem_map] at hx hx2
      obtain ⟨p, hp, hpx⟩ := hx
      obtain ⟨r, hr, hrx⟩ := hx2
      obtain ⟨a, _, hap⟩ := hp
      refine hk ?_
      have hpk : p.date = k := by rw [← hap]
      have hpr : p.date = r.date := congrArg Prod.fst (hpx.trans hrx.symm)
      have hrk : r.date = k := by rw [← hpr, hpk]
      simpa [hrk] using flatten_fst_mem rest r hr

lemma pyGet_lt (c : Column) : ∀ i, i < c.length → ∃ v, pyGet c i = .ok v := by
  induction c with
  | nil =>
    intro i h
    simp at h
  | cons v rest ih =>
    intro i h
    cases i with
    | zero => exact ⟨v, rfl⟩
    | succ n =>
      refine ih n ?_
      simp at h
      omega

lemma aggLoop_ok (key : PyDateTime → String) (d : Dataset) (f : String) (vs : Column)
    (hf : getCol d f = .ok vs) :
    ∀ (ts : List PyDateTime) (i : Nat) (b : Bins), i + ts.length ≤ vs.length →
      ∃ ps : List (String × Value),
        ps.map Prod.fst = ts.map key ∧
        aggLoop key d f (ts.map Value.dt) i b = .ok (buildBins ps b) := by
  intro ts
  induction ts with
  | nil =>
    intro i b _
    exact ⟨[], rfl, rfl⟩
  | cons t rest ih =>
    intro i b h
    obtain ⟨v, hv⟩ := pyGet_lt vs i (by simp at h; omega)
    obtain ⟨ps, hps, hloop⟩ := ih (i + 1) (addRow b (key t) v) (by simp at h ⊢; omega)
    refine ⟨(key t, v) :: ps, by simp [hps], ?_⟩
    simp only [List.map_cons, aggLoop, asDateAttr, hf, hv]
    exact hloop

lemma aggregateBy_spec (key : PyDateTime → String) (d : Dataset) (f : String)
    (ts : List PyDateTime) (vs : Column)
    (hts : getCol d "timestamp" = .ok (ts.map Value.dt))
    (hf : getCol d f = .ok vs)
    (hlen : ts.length ≤ vs.length) :
    ∃ recs, aggregateBy key d f = .ok recs ∧
      (∀ bk, recsTotal recs bk = countKey (ts.map key) bk) ∧
      (∀ r ∈ recs, 1 ≤ r.count) ∧
      ((recs.map (fun r => (r.date, r.value))).Nodup) := by
  obtain ⟨ps, hps, hloop⟩ := aggLoop_ok key d f vs hf ts 0 [] (by omega)
  refine ⟨flattenBins (buildBins ps []), ?_, ?_, ?_, ?_⟩
  · simp only [aggregateBy, hts, hloop]
  · intro bk
    rw [recsTotal_flatten, binsTotal_buildBins, hps]
    simp [binsTotal]
  · exact flatten_pos _ (buildBins_pos ps [] (by intro e he; simp at he))
  · refine flatten_pairsNodup _ (binsNodup_buildBins ps [] ⟨by simp, ?_⟩)
    intro e he
    simp at he

lemma idxFilter_ok (sdt edt : PyDateTime) :
    ∀ (ts : List PyDateTime) (i : Nat),
      idxFilter sdt edt (ts.map Value.dt) i = .ok (idxList sdt edt ts i) := by
  intro ts
  induction ts with
  | nil =>
    intro i
    rfl
  | cons t rest ih =>
    intro i
    simp only [List.map_cons, idxFilter, asDateCmp, ih, idxList]

lemma idxList_shift (sdt edt : PyDateTime) :
    ∀ (ts : List PyDateTime) (i : Nat),
      idxList sdt edt ts (i + 1) = (idxList sdt edt ts i).map (fun n => n + 1) := by
  intro ts
  induction ts with
  | nil =>
    intro i
    rfl
  | cons t rest ih =>
    intro i
    by_cases h : keep sdt edt t
    · simp [idxList, h, ih]
    · simp [idxList, h, ih]

lemma gather_shift (v : Value) (c : Column) :
    ∀ idxs : List Nat, gather (v :: c) (idxs.map (fun n => n + 1)) = gather c idxs := by
  intro idxs
  induction idxs with
  | nil => rfl
  | cons i rest ih =>
    simp only [List.map_cons, gather, pyGet, ih]

lemma rangeGather (sdt edt : PyDateTime) :
    ∀ (ts : List PyDateTime) (vs : Column), vs.length = ts.length →
      gather (ts.map Value.dt) (idxList sdt edt ts 0)
          = .ok (((ts.zip vs).filter (fun p => keep sdt edt p.1)).map (fun p => Value.dt p.1))
        ∧ gather vs (idxList sdt edt ts 0)
          = .ok (((ts.zip vs).filter (fun p => keep sdt edt p.1)).map Prod.snd) := by
  intro ts
  induction ts with
  | nil =>
    intro vs hlen
    rw [List.length_nil, List.length_eq_zero] at hlen
    subst hlen
    exact ⟨rfl, rfl⟩
  | cons t rest ih =>
    intro vs hlen
    cases vs with
    | nil => simp at hlen
    | cons v vrest =>
      simp only [List.length_cons] at hlen
      obtain ⟨ih1, ih2⟩ := ih vrest (by omega)
      by_cases h : keep sdt edt t
      · constructor
        · simp only [idxList, h, if_pos, List.map_cons, gather, pyGet,
            idxList_shift, gather_shift, ih1, List.zip_cons_cons, List.filter_cons, h]
        · simp only [idxList, h, if_pos, gather, pyGet,
            idxList_shift, gather_shift, ih2, List.zip_cons_cons, List.filter_cons, h]
          simp
      · constructor
        · simp only [idxList, h, if_neg, Bool.false_eq_true, not_false_iff, List.map_cons,
            idxList_shift, gather_shift, ih1, List.zip_cons_cons, List.filter_cons, h]
        · simp only [idxList, h, if_neg, Bool.false_eq_true, not_false_iff,
            idxList_shift, gather_shift, ih2, List.zip_cons_cons, List.filter_cons, h]

lemma zip_filter_fst (sdt edt : PyDateTime) :
    ∀ (ts : List PyDateTime) (vs : Column), vs.length = ts.length →
      ((ts.zip vs).filter (fun p => keep sdt edt p.1)).map Prod.fst
        = keptRows sdt edt ts := by
  intro ts
  induction ts with
  | nil =>
    intro vs hlen
    rfl
  | cons t rest ih =>
    intro vs hlen
    cases vs with
    | nil => simp at hlen
    | cons v vrest =>
      simp only [List.length_cons] at hlen
      have ihh := ih vrest (by omega)
      rw [keptRows] at ihh ⊢
      by_cases h : keep sdt edt t
      · simp [List.filter_cons, h, ihh]
      · simp [List.filter_cons, h, ihh]

lemma getCol_setCol_self (d : Dataset) (k : String) (c : Column) :
    getCol (setCol d k c) k = .ok c := by
  induction d with
  | nil => simp [setCol, getCol]
  | cons e rest ih =>
    obtain ⟨k2, c2⟩ := e
    by_cases h : k2 = k
    · simp [setCol, getCol, h]
    · simp [setCol, getCol, h, ih]

lemma getCol_setCol_other (d : Dataset) (k q : String) (c : Column) (hq : q ≠ k) :
    getCol (setCol d k c) q = getCol d q := by
  induction d with
  | nil => simp [setCol, getCol, Ne.symm hq]
  | cons e rest ih =>
    obtain ⟨k2, c2⟩ := e
    by_cases h : k2 = k
    · subst h
      simp [setCol, getCol, Ne.symm hq]
    · by_cases h2 : k2 = q
      · subst h2
        simp [setCol, getCol, hq]
      · simp [setCol, getCol, h, h2, ih]

lemma truthyCond (s e : String) (d : Dataset) (hs : s ≠ "") (he : e ≠ "") (hd : d ≠ []) :
    (truthyOpt (some s) && truthyOpt (some e) && !d.isEmpty) = true := by
  cases d with
  | nil => exact absurd rfl hd
  | cons x xs => simp [truthyOpt, hs, he]

lemma fromiso_dateOnly (s : String) (y m d : Int)
    (h : dateOnly s.toList = some (y, m, d)) :
    fromisoformat s = .ok ⟨daysFromCivil y m d, 0, 0, 0⟩ := by
  rw [fromisoformat, h]

lemma rangeFilterStep_spec (d : Dataset) (f s e : String) (ts : List PyDateTime) (vs : Column)
    (sdt edt : PyDateTime)
    (hs : s ≠ "") (he : e ≠ "") (hd : d ≠ [])
    (hts : getCol d "timestamp" = .ok (ts.map Value.dt))
    (hf : getCol d f = .ok vs)
    (hlen : vs.length = ts.length)
    (hps : fromisoformat s = .ok sdt) (hpe : fromisoformat e = .ok edt) :
    rangeFilterStep d f (some s) (some e)
      = .ok (setCol
          (setCol d "timestamp"
            (((ts.zip vs).filter (fun p => keep sdt (endOfDay edt) p.1)).map
              (fun p => Value.dt p.1)))
          f
          (((ts.zip vs).filter (fun p => keep sdt (endOfDay edt) p.1)).map Prod.snd)) := by
  obtain ⟨hg1, hg2⟩ := rangeGather sdt (endOfDay edt) ts vs hlen
  rw [rangeFilterStep, if_pos (truthyCond s e d hs he hd)]
  simp only [Option.getD_some, hps, hpe, hts, idxFilter_ok, hg1, hg2, hf]

/-- C3: a cache slot is fresh iff `now - loadedAt` is strictly below the TTL
(`cache_duration`), and a slot with no recorded load time is never fresh
(`_is_cache_valid`, kusto.py lines 53-57). -/
theorem freshness_boundary (h : KustoHandler) (now T : Int) :
    (is_cache_valid h now (some T) = true ↔ now - T < h.cache_duration)
    ∧ is_cache_valid h now none = false := by
  constructor
  · simp [is_cache_valid]
  · rfl

/-- C9: `get_cache_status` is a pure read: it reports each slot's freshness,
last load time and age, returns the handler state unchanged, and performs no
external load (empty load list) (kusto.py lines 249-266). -/
theorem cache_status_pure_read (h : KustoHandler) (now : Int) :
    get_cache_status h now
      = (⟨⟨is_cache_valid h now h.last_load_time, h.last_load_time,
           h.last_load_time.map (fun x => now - x)⟩,
          ⟨is_cache_valid h now h.bar_last_load_time, h.bar_last_load_time,
           h.bar_last_load_time.map (fun x => now - x)⟩,
          h.cache_duration⟩, h, []) := rfl

/-- C7: for every timestamp, the Week bucket key is the `YYYY-MM-DD` date of
the Monday (`weekday = 0`) on or before the timestamp's date, at most six
days earlier; in particular 2024-03-15 is a Friday (weekday 4) and buckets
under "2024-03-11", the date of the preceding Monday 2024-03-11. -/
theorem week_bucketing_monday :
    (∀ t : PyDateTime, ∃ m : Int,
        weekday m = 0 ∧ m ≤ t.days ∧ t.days - m < 7 ∧ weekKey t = formatYMD m)
    ∧ weekday (daysFromCivil 2024 3 15) = 4
    ∧ weekKey ⟨daysFromCivil 2024 3 15, 12, 0, 0⟩ = "2024-03-11"
    ∧ formatYMD (daysFromCivil 2024 3 11) = "2024-03-11" := by
  refine ⟨?_, by decide, by decide, by decide⟩
  intro t
  refine ⟨t.days - weekday t.days, ?_, ?_, ?_, rfl⟩
  · unfold weekday
    omega
  · unfold weekday
    omega
  · unfold weekday
    omega

/-- C6: every `bin_size` tag outside the five recognized ones produces
exactly the output of the same request with `bin_size = "1D"`, via the
explicit recursive fallback of kusto.py lines 233-235; the fallback is not
an error. -/
theorem unknown_bin_size_defaults_daily (d : Dataset) (f : String)
    (s e : Option String) (bin : String)
    (hbin : bin ∉ ["1H", "1D", "1W", "1M", "3M"]) :
    get_bar_data d f s e bin = get_bar_data d f s e "1D" := by
  have h1 : bin ≠ "1H" := fun h => hbin (by rw [h]; simp)
  have h2 : bin ≠ "1D" := fun h => hbin (by rw [h]; simp)
  have h3 : bin ≠ "1W" := fun h => hbin (by rw [h]; simp)
  have h4 : bin ≠ "1M" := fun h => hbin (by rw [h]; simp)
  have h5 : bin ≠ "3M" := fun h => hbin (by rw [h]; simp)
  cases hrf : rangeFilterStep d f s e with
  | error err =>
    rw [get_bar_data, hrf, get_bar_data, hrf]
  | ok fd =>
    rw [get_bar_data, hrf]
    simp [h1, h2, h3, h4, h5]

/-- C6 witness: `bin_size = "2D"` on a concrete snapshot gives the `"1D"`
output. -/
theorem unknown_bin_size_defaults_daily_witness :
    get_bar_data dsTwoRows "status" none none "2D"
      = get_bar_data dsTwoRows "status" none none "1D" :=
  unknown_bin_size_defaults_daily dsTwoRows "status" none none "2D" (by decide)

/-- C10: `get_bar_data` terminates on every input: two units of recursion
fuel always suffice, because the unrecognized-bin-size branch recurses
exactly once with the tag "1D", which a non-recursive branch handles. -/
theorem get_bar_data_terminates (d : Dataset) (f : String)
    (s e : Option String) (bin : String) :
    getBarDataFuel 2 d f s e bin = some (get_bar_data d f s e bin) := by
  cases hrf : rangeFilterStep d f s e with
  | error err =>
    rw [get_bar_data, hrf]
    simp [getBarDataFuel, hrf]
  | ok fd =>
    rw [get_bar_data, hrf]
    by_cases h1 : bin = "1H"
    · subst h1
      simp [getBarDataFuel, hrf]
    · by_cases h2 : bin = "1D"
      · subst h2
        simp [getBarDataFuel, hrf]
      · by_cases h3 : bin = "1W"
        · subst h3
          simp [getBarDataFuel, hrf]
        · by_cases h4 : bin = "1M"
          · subst h4
            simp [getBarDataFuel, hrf]
          · by_cases h5 : bin = "3M"
            · subst h5
              simp [getBarDataFuel, hrf]
            · rw [get_bar_data, hrf]
              simp [getBarDataFuel, hrf, h1, h2, h3, h4, h5]

/-- C1: for every dataset holding a row-aligned timestamp column (all
datetimes) and the feature column, and every recognized granularity, the
aggregation succeeds and, for every bucket key, the emitted counts for that
bucket sum to the number of input rows whose timestamp maps to it; every
emitted count is at least 1 and no (bucket, value) pair is emitted twice. -/
theorem bucket_completeness (d : Dataset) (f bin : String)
    (ts : List PyDateTime) (vs : Column)
    (hbin : bin ∈ ["1H", "1D", "1W", "1M", "3M"])
    (hts : getCol d "timestamp" = .ok (ts.map Value.dt))
    (hf : getCol d f = .ok vs)
    (hlen : vs.length = ts.length) :
    ∃ recs, get_bar_data d f none none bin = .ok recs
      ∧ (∀ bk, recsTotal recs bk = countKey (ts.map (keyForBin bin)) bk)
      ∧ (∀ r ∈ recs, 1 ≤ r.count)
      ∧ ((recs.map (fun r => (r.date, r.value))).Nodup) := by
  have hfilter : rangeFilterStep d f none none = .ok d := rfl
  have hlen2 : ts.length ≤ vs.length := by omega
  simp only [List.mem_cons, List.not_mem_nil, or_false] at hbin
  rcases hbin with rfl | rfl | rfl | rfl | rfl
  · obtain ⟨recs, h1, h2, h3, h4⟩ := aggregateBy_spec hourKey d f ts vs hts hf hlen2
    refine ⟨recs, ?_, fun bk => ?_, h3, h4⟩
    · rw [get_bar_data, hfilter]
      simpa using h1
    · simpa [keyForBin] using h2 bk
  · obtain ⟨recs, h1, h2, h3, h4⟩ := aggregateBy_spec dayKey d f ts vs hts hf hlen2
    refine ⟨recs, ?_, fun bk => ?_, h3, h4⟩
    · rw [get_bar_data, hfilter]
      simpa using h1
    · simpa [keyForBin] using h2 bk
  · obtain ⟨recs, h1, h2, h3, h4⟩ := aggregateBy_spec weekKey d f ts vs hts hf hlen2
    refine ⟨recs, ?_, fun bk => ?_, h3, h4⟩
    · rw [get_bar_data, hfilter]
      simpa using h1
    · simpa [keyForBin] using h2 bk
  · obtain ⟨recs, h1, h2, h3, h4⟩ := aggregateBy_spec monthKey d f ts vs hts hf hlen2
    refine ⟨recs, ?_, fun bk => ?_, h3, h4⟩
    · rw [get_bar_data, hfilter]
      simpa using h1
    · simpa [keyForBin] using h2 bk
  · obtain ⟨recs, h1, h2, h3, h4⟩ := aggregateBy_spec quarterKey d f ts vs hts hf hlen2
    refine ⟨recs, ?_, fun bk => ?_, h3, h4⟩
    · rw [get_bar_data, hfilter]
      simpa using h1
    · simpa [keyForBin] using h2 bk

/-- C1 witness: the completeness statement applied to a concrete two-row
snapshot at daily granularity. -/
theorem bucket_completeness_witness :
    ∃ recs, get_bar_data dsTwoRows "status" none none "1D" = .ok recs
      ∧ (∀ bk, recsTotal recs bk
          = countKey (([⟨daysFromCivil 2024 1 1, 0, 0, 0⟩,
                        ⟨daysFromCivil 2024 1 3, 23, 59, 59⟩] :
              List PyDateTime).map (keyForBin "1D")) bk)
      ∧ (∀ r ∈ recs, 1 ≤ r.count)
      ∧ ((recs.map (fun r => (r.date, r.value))).Nodup) :=
  bucket_completeness dsTwoRows "status" "1D"
    [⟨daysFromCivil 2024 1 1, 0, 0, 0⟩, ⟨daysFromCivil 2024 1 3, 23, 59, 59⟩]
    [Value.str "a", Value.str "b"]
    (by decide) (by decide) (by decide) (by decide)

lemma zip_filter_dt (sdt edt : PyDateTime) (ts : List PyDateTime) (vs : Column)
    (hlen : vs.length = ts.length) :
    ((ts.zip vs).filter (fun p => keep sdt edt p.1)).map (fun p => Value.dt p.1)
      = (keptRows sdt edt ts).map Value.dt := by
  rw [← zip_filter_fst sdt edt ts vs hlen, List.map_map]
  rfl

/-- C2: with both bounds supplied as calendar dates, the effective window is
start at 00:00:00 through end at 23:59:59 and the retained timestamps are
exactly those `t` with `start ≤ t ≤ end`, in original order
(kusto.py lines 103-115). -/
theorem range_filter_inclusivity (d : Dataset) (f s e : String)
    (ts : List PyDateTime) (vs : Column) (ys ms dds ye me dde : Int)
    (hs : s ≠ "") (he : e ≠ "") (hd : d ≠ [])
    (hts : getCol d "timestamp" = .ok (ts.map Value.dt))
    (hf : getCol d f = .ok vs) (hft : f ≠ "timestamp")
    (hlen : vs.length = ts.length)
    (hps : dateOnly s.toList = some (ys, ms, dds))
    (hpe : dateOnly e.toList = some (ye, me, dde)) :
    ∃ d2, rangeFilterStep d f (some s) (some e) = .ok d2
      ∧ getCol d2 "timestamp"
          = .ok ((keptRows ⟨daysFromCivil ys ms dds, 0, 0, 0⟩
                    ⟨daysFromCivil ye me dde, 23, 59, 59⟩ ts).map Value.dt)
      ∧ (∀ t, t ∈ keptRows ⟨daysFromCivil ys ms dds, 0, 0, 0⟩
                    ⟨daysFromCivil ye me dde, 23, 59, 59⟩ ts
            ↔ t ∈ ts ∧ dtLe ⟨daysFromCivil ys ms dds, 0, 0, 0⟩ t = true
                ∧ dtLe t ⟨daysFromCivil ye me dde, 23, 59, 59⟩ = true) := by
  have hps2 := fromiso_dateOnly s ys ms dds hps
  have hpe2 := fromiso_dateOnly e ye me dde hpe
  have hspec := rangeFilterStep_spec d f s e ts vs _ _ hs he hd hts hf hlen hps2 hpe2
  refine ⟨_, hspec, ?_, ?_⟩
  · rw [getCol_setCol_other _ f "timestamp" _ (Ne.symm hft), getCol_setCol_self,
      zip_filter_dt _ _ ts vs hlen]
    rfl
  · intro t
    simp [keptRows, List.mem_filter, keep, Bool.and_eq_true]

/-- C2 witness: the inclusivity statement applied at a snapshot with rows
at 2024-01-01T00:00:00 and 2024-01-03T23:59:59; filtering with
start=2024-01-01, end=2024-01-03 retains both rows (the output dataset is
unchanged), and end=2024-01-02 drops the second row. -/
theorem range_filter_inclusivity_witness :
    (∃ d2, rangeFilterStep dsTwoRows "status" (some "2024-01-01") (some "2024-01-03")
          = .ok d2
      ∧ getCol d2 "timestamp"
          = .ok ((keptRows ⟨daysFromCivil 2024 1 1, 0, 0, 0⟩
                    ⟨daysFromCivil 2024 1 3, 23, 59, 59⟩
                    [⟨daysFromCivil 2024 1 1, 0, 0, 0⟩,
                     ⟨daysFromCivil 2024 1 3, 23, 59, 59⟩]).map Value.dt)
      ∧ (∀ t, t ∈ keptRows ⟨daysFromCivil 2024 1 1, 0, 0, 0⟩
                    ⟨daysFromCivil 2024 1 3, 23, 59, 59⟩
                    [⟨daysFromCivil 2024 1 1, 0, 0, 0⟩,
                     ⟨daysFromCivil 2024 1 3, 23, 59, 59⟩]
            ↔ t ∈ ([⟨daysFromCivil 2024 1 1, 0, 0, 0⟩,
                    ⟨daysFromCivil 2024 1 3, 23, 59, 59⟩] : List PyDateTime)
                ∧ dtLe ⟨daysFromCivil 2024 1 1, 0, 0, 0⟩ t = true
                ∧ dtLe t ⟨daysFromCivil 2024 1 3, 23, 59, 59⟩ = true))
    ∧ rangeFilterStep dsTwoRows "status" (some "2024-01-01") (some "2024-01-03")
        = .ok dsTwoRows
    ∧ rangeFilterStep dsTwoRows "status" (some "2024-01-01") (some "2024-01-02")
        = .ok [("timestamp", [Value.dt ⟨daysFromCivil 2024 1 1, 0, 0, 0⟩]),
               ("status", [Value.str "a"])] :=
  ⟨range_filter_inclusivity dsTwoRows "status" "2024-01-01" "2024-01-03"
      [⟨daysFromCivil 2024 1 1, 0, 0, 0⟩, ⟨daysFromCivil 2024 1 3, 23, 59, 59⟩]
      [Value.str "a", Value.str "b"] 2024 1 1 2024 1 3
      (by decide) (by decide) (by decide) (by decide) (by decide) (by decide)
      (by decide) (by decide) (by decide),
   by decide, by decide⟩

/-- C8 counterexample: the filtered dataset keeps every other column at its
original, unfiltered length, so the all-columns-same-length invariant fails
on the output even though it held on the input: a three-column snapshot
filtered down to one row keeps two entries in its third column. -/
theorem filter_columnar_invariant_counterexample :
    allColsSameLength dsThreeCols = true
    ∧ rangeFilterStep dsThreeCols "status" (some "2024-01-01") (some "2024-01-01")
        = .ok [("timestamp", [Value.dt ⟨daysFromCivil 2024 1 1, 5, 0, 0⟩]),
               ("status", [Value.str "x"]),
               ("priority", [Value.str "p", Value.str "q"])]
    ∧ allColsSameLength
        [("timestamp", [Value.dt ⟨daysFromCivil 2024 1 1, 5, 0, 0⟩]),
         ("status", [Value.str "x"]),
         ("priority", [Value.str "p", Value.str "q"])] = false := by
  exact ⟨by decide, by decide, by decide⟩

/-- C8 as amended: the filter output's timestamp column and analyzed feature
column are row-aligned with the retained rows in original relative order
(and in particular have equal length); columns other than these two are
carried through unfiltered, so the all-columns invariant need not hold. -/
theorem filter_output_alignment (d : Dataset) (f s e : String)
    (ts : List PyDateTime) (vs : Column) (sdt edt : PyDateTime)
    (hs : s ≠ "") (he : e ≠ "") (hd : d ≠ [])
    (hts : getCol d "timestamp" = .ok (ts.map Value.dt))
    (hf : getCol d f = .ok vs) (hft : f ≠ "timestamp")
    (hlen : vs.length = ts.length)
    (hps : fromisoformat s = .ok sdt) (hpe : fromisoformat e = .ok edt) :
    ∃ d2, rangeFilterStep d f (some s) (some e) = .ok d2
      ∧ getCol d2 "timestamp"
          = .ok (((ts.zip vs).filter (fun p => keep sdt (endOfDay edt) p.1)).map
              (fun p => Value.dt p.1))
      ∧ getCol d2 f
          = .ok (((ts.zip vs).filter (fun p => keep sdt (endOfDay edt) p.1)).map Prod.snd)
      ∧ (((ts.zip vs).filter (fun p => keep sdt (endOfDay edt) p.1)).map
            (fun p => Value.dt p.1)).length
          = (((ts.zip vs).filter (fun p => keep sdt (endOfDay edt) p.1)).map
              Prod.snd).length := by
  have hspec := rangeFilterStep_spec d f s e ts vs sdt edt hs he hd hts hf hlen hps hpe
  refine ⟨_, hspec, ?_, ?_, ?_⟩
  · rw [getCol_setCol_other _ f "timestamp" _ (Ne.symm hft), getCol_setCol_self]
  · rw [getCol_setCol_self]
  · simp

/-- C8 witness: the alignment statement applied to the three-column snapshot. -/
theorem filter_output_alignment_witness :
    ∃ d2, rangeFilterStep dsThreeCols "status" (some "2024-01-01") (some "2024-01-01")
        = .ok d2
      ∧ getCol d2 "timestamp"
          = .ok ((([⟨daysFromCivil 2024 1 1, 5, 0, 0⟩, ⟨daysFromCivil 2024 1 2, 5, 0, 0⟩] :
                List PyDateTime).zip
              ([Value.str "x", Value.str "y"] : Column)).filter
                (fun p => keep ⟨daysFromCivil 2024 1 1, 0, 0, 0⟩
                  (endOfDay ⟨daysFromCivil 2024 1 1, 0, 0, 0⟩) p.1) |>.map
                (fun p => Value.dt p.1))
      ∧ getCol d2 "status"
          = .ok ((([⟨daysFromCivil 2024 1 1, 5, 0, 0⟩, ⟨daysFromCivil 2024 1 2, 5, 0, 0⟩] :
                List PyDateTime).zip
              ([Value.str "x", Value.str "y"] : Column)).filter
                (fun p => keep ⟨daysFromCivil 2024 1 1, 0, 0, 0⟩
                  (endOfDay ⟨daysFromCivil 2024 1 1, 0, 0, 0⟩) p.1) |>.map Prod.snd)
      ∧ ((([⟨daysFromCivil 2024 1 1, 5, 0, 0⟩, ⟨daysFromCivil 2024 1 2, 5, 0, 0⟩] :
                List PyDateTime).zip
              ([Value.str "x", Value.str "y"] : Column)).filter
                (fun p => keep ⟨daysFromCivil 2024 1 1, 0, 0, 0⟩
                  (endOfDay ⟨daysFromCivil 2024 1 1, 0, 0, 0⟩) p.1) |>.map
                (fun p => Value.dt p.1)).length
          = ((([⟨daysFromCivil 2024 1 1, 5, 0, 0⟩, ⟨daysFromCivil 2024 1 2, 5, 0, 0⟩] :
                List PyDateTime).zip
              ([Value.str "x", Value.str "y"] : Column)).filter
                (fun p => keep ⟨daysFromCivil 2024 1 1, 0, 0, 0⟩
                  (endOfDay ⟨daysFromCivil 2024 1 1, 0, 0, 0⟩) p.1) |>.map
                Prod.snd).length :=
  filter_output_alignment dsThreeCols "status" "2024-01-01" "2024-01-01"
    [⟨daysFromCivil 2024 1 1, 5, 0, 0⟩, ⟨daysFromCivil 2024 1 2, 5, 0, 0⟩]
    [Value.str "x", Value.str "y"]
    ⟨daysFromCivil 2024 1 1, 0, 0, 0⟩ ⟨daysFromCivil 2024 1 1, 0, 0, 0⟩
    (by decide) (by decide) (by decide) (by decide) (by decide) (by decide)
    (by decide) (by decide) (by decide)

/-- C4 counterexample: on a dataset with zero rows whose columns do not
include the requested feature, the aggregation does not raise `KeyError`
but returns an empty result, because the per-row feature lookup is never
executed. -/
theorem missing_feature_counterexample :
    getCol dsEmptyNoFeature "status" = .error (.keyError "status")
    ∧ get_bar_data dsEmptyNoFeature "status" none none "1D" = .ok [] := by
  constructor
  · decide
  · rw [get_bar_data]
    decide

/-- C4 as amended: with at least one row, a feature name absent from the
dataset's columns makes the aggregation fail with `KeyError(feature)` and
never yields a result; a dataset that does contain the feature but has zero
rows yields an empty result, not an error. -/
theorem missing_feature_keyerror :
    (∀ (d : Dataset) (f bin : String) (t : PyDateTime) (ts : List PyDateTime),
        bin ∈ ["1H", "1D", "1W", "1M", "3M"] →
        getCol d "timestamp" = .ok ((t :: ts).map Value.dt) →
        getCol d f = .error (.keyError f) →
        get_bar_data d f none none bin = .error (.keyError f))
    ∧ (∀ (d : Dataset) (f bin : String) (vs : Column),
        bin ∈ ["1H", "1D", "1W", "1M", "3M"] →
        getCol d "timestamp" = .ok [] →
        getCol d f = .ok vs →
        get_bar_data d f none none bin = .ok []) := by
  constructor
  · intro d f bin t ts hbin hts hf
    simp only [List.mem_cons, List.not_mem_nil, or_false] at hbin
    have hfilter : rangeFilterStep d f none none = .ok d := rfl
    rcases hbin with rfl | rfl | rfl | rfl | rfl
    all_goals
      rw [get_bar_data, hfilter]
      simp [aggregateBy, hts, aggLoop, asDateAttr, hf]
  · intro d f bin vs hbin hts hf
    simp only [List.mem_cons, List.not_mem_nil, or_false] at hbin
    have hfilter : rangeFilterStep d f none none = .ok d := rfl
    rcases hbin with rfl | rfl | rfl | rfl | rfl
    all_goals
      rw [get_bar_data, hfilter]
      simp [aggregateBy, hts, aggLoop, flattenBins]

/-- C4 witness: both amended branches at concrete datasets. -/
theorem missing_feature_keyerror_witness :
    get_bar_data dsTwoRows "missing" none none "1D" = .error (.keyError "missing")
    ∧ get_bar_data [("timestamp", []), ("status", [])] "status" none none "1D"
        = .ok [] := by
  constructor
  · exact missing_feature_keyerror.1 dsTwoRows "missing" "1D"
      ⟨daysFromCivil 2024 1 1, 0, 0, 0⟩ [⟨daysFromCivil 2024 1 3, 23, 59, 59⟩]
      (by decide) (by decide) (by decide)
  · exact missing_feature_keyerror.2 [("timestamp", []), ("status", [])] "status" "1D" []
      (by decide) (by decide) (by decide)

/-- C5 counterexample: a malformed start date accompanied by an absent end
date is silently ignored: the request succeeds and returns the unfiltered
aggregation, so a malformed date string does not always fail. -/
theorem malformed_date_counterexample :
    fromisoformat "not-a-date" = .error (.valueError "not-a-date")
    ∧ get_bar_data dsTwoRows "status" (some "not-a-date") none "1D"
        = .ok [⟨"2024-01-01", Value.str "a", 1⟩, ⟨"2024-01-03", Value.str "b", 1⟩] := by
  constructor
  · decide
  · rw [get_bar_data]
    decide

/-- C5 as amended: when both bounds are supplied and non-empty and the
snapshot is non-empty, a malformed start or end date string makes the
request fail with the `ValueError` carrying that string (never a silent
empty or unfiltered result); with an absent or empty other bound the filter
is skipped entirely and no error is raised. -/
theorem malformed_date_error (d : Dataset) (f s e bin : String)
    (hd : d ≠ []) (hs : s ≠ "") (he : e ≠ "") :
    (fromisoformat s = .error (.valueError s) →
        get_bar_data d f (some s) (some e) bin = .error (.valueError s))
    ∧ (∀ sdt, fromisoformat s = .ok sdt → fromisoformat e = .error (.valueError e) →
        get_bar_data d f (some s) (some e) bin = .error (.valueError e)) := by
  constructor
  · intro hps
    have hrf : rangeFilterStep d f (some s) (some e) = .error (.valueError s) := by
      rw [rangeFilterStep, if_pos (truthyCond s e d hs he hd)]
      simp only [Option.getD_some, hps]
    rw [get_bar_data, hrf]
  · intro sdt hps hpe
    have hrf : rangeFilterStep d f (some s) (some e) = .error (.valueError e) := by
      rw [rangeFilterStep, if_pos (truthyCond s e d hs he hd)]
      simp only [Option.getD_some, hps, hpe]
    rw [get_bar_data, hrf]

/-- C5 witness: a malformed start and a malformed end, each with the other
bound well-formed, both fail with the `ValueError` carrying the offending
string. -/
theorem malformed_date_error_witness :
    get_bar_data dsTwoRows "status" (some "not-a-date") (some "2024-01-03") "1D"
        = .error (.valueError "not-a-date")
    ∧ get_bar_data dsTwoRows "status" (some "2024-01-01") (some "2024-13-99") "1D"
        = .error (.valueError "2024-13-99") := by
  constructor
  · exact (malformed_date_error dsTwoRows "status" "not-a-date" "2024-01-03" "1D"
      (by decide) (by decide) (by decide)).1 (by decide)
  · exact (malformed_date_error dsTwoRows "status" "2024-01-01" "2024-13-99" "1D"
      (by decide) (by decide) (by decide)).2 ⟨daysFromCivil 2024 1 1, 0, 0, 0⟩
      (by decide) (by decide)
